import Mathlib

/-!
TipTune sidecar supervisor — verification of the spec against `src/src-tauri/src/lib.rs`

Shallow embedding of the sidecar process supervisor:
* the Shared Lifecycle State (`SidecarState` in the Rust source: a
  `Mutex<Option<CommandChild>>`),
* the Termination Sequencer (`kill_sidecar`, lib.rs lines 20-39),
* the Environment Builder and Process Launcher inside `run`'s setup
  closure (lib.rs lines 47-84),
* the Output Drain Loop (lib.rs lines 86-110).

Machine-level effects (the OS kill, the taskkill subprocess, logging)
are reflected as explicit data in the results of the embedded
functions; the lock is modelled by an explicit acquisition outcome and,
for the concurrency claim, by a small-step interleaving semantics in
which the critical section of `kill_sidecar` (lock, `guard.take()`)
is a single atomic step, which is exactly what the mutex guarantees.
-/

namespace TipTune

/-- A live child-process handle (`CommandChild` in the source); the only
observable datum the supervisor uses is its pid (lib.rs line 25). -/
structure ChildHandle where
  pid : Nat
deriving DecidableEq, Repr

/-- Outcome of `Mutex::lock()`: `Ok(guard)` or the poisoned-mutex `Err`.
lib.rs line 21 pattern-matches with `if let Ok(mut guard) = ... .lock()`. -/
inductive LockResult where
  | ok
  | poisoned
deriving DecidableEq, Repr

/-- Build-target platform, selecting the kill strategy
(`#[cfg(windows)]` vs `#[cfg(not(windows))]`, lib.rs lines 23-36). -/
inductive Platform where
  | windows
  | other
deriving DecidableEq, Repr

/-- The kill action `kill_sidecar` performs when it took a handle:
on Windows, `taskkill /PID <pid> /T /F` (tree kill, forced, output
suppressed; lib.rs lines 26-30); elsewhere, `child.kill()` on the single
handle (lib.rs line 35). Failures of either are discarded (`let _ =`). -/
inductive KillCmd where
  | taskkillTree (pid : Nat)
  | directKill (pid : Nat)
deriving DecidableEq, Repr

/-- Result of one `kill_sidecar` invocation: the contents of the shared
slot afterwards, and the kill action performed, if any.  The Rust
function returns `()` and cannot panic; totality of this function
reflects that. -/
structure KillResult where
  slot : Option ChildHandle
  killed : Option KillCmd
deriving DecidableEq, Repr

/-- `kill_sidecar` (lib.rs lines 20-39): lock the shared state; on a
poisoned lock do nothing; otherwise `take()` the optional child handle
and, when one was present, kill it (tree kill on Windows, direct kill
elsewhere). -/
def kill_sidecar (platform : Platform) (lock : LockResult)
    (slot : Option ChildHandle) : KillResult :=
  match lock with
  | .poisoned => { slot := slot, killed := none }
  | .ok =>
    match slot with
    | none => { slot := none, killed := none }
    | some child =>
      match platform with
      | .windows => { slot := none, killed := some (.taskkillTree child.pid) }
      | .other => { slot := none, killed := some (.directKill child.pid) }

/-- Internal events of one `kill_sidecar` invocation, in the order the
source performs them.  The `MutexGuard` obtained on lib.rs line 21 is
dropped at the closing brace on line 38, i.e. after the platform kill
on lines 23-36 has completed. -/
inductive TraceEvent where
  | lockAcquired
  | handleTaken
  | killPerformed
  | lockReleased
deriving DecidableEq, Repr

/-- The event trace of one `kill_sidecar` invocation, read off the
source: lines 21 (acquire), 22 (`guard.take()`), 23-36 (kill), 38
(guard drop = release). A poisoned lock produces no events. -/
def killSidecarTrace (lock : LockResult) (slot : Option ChildHandle) :
    List TraceEvent :=
  match lock with
  | .poisoned => []
  | .ok =>
    match slot with
    | none => [.lockAcquired, .lockReleased]
    | some _ => [.lockAcquired, .handleTaken, .killPerformed, .lockReleased]

/-- Position of the first occurrence of an event in a trace
(`List.indexOf`); used to compare the order of trace events. -/
def tracePos (t : List TraceEvent) (e : TraceEvent) : Nat :=
  t.indexOf e

/-!
Interleaving semantics of concurrent `kill_sidecar` invocations

Several termination triggers (window close, lib.rs lines 115-123;
exit requested / exit, lines 127-134; Terminated detected, lines
102-106) each call `kill_sidecar` concurrently.  Each invocation's
critical section — `lock()` followed by `guard.take()` — is a single
atomic step here, which is exactly what the mutex guarantees: nothing
else can touch the slot between the acquire and the take.  The kill
that follows a successful take does not touch the slot, so it is a
separate step.  A schedule is an arbitrary list of invocation indices,
covering every interleaving of the triggers' steps. -/

/-- The phase an individual `kill_sidecar` invocation is in:
not yet run its critical section; has taken a handle (and will kill);
found the slot empty (no-op); or has completed its kill. -/
inductive Phase where
  | pending
  | tookSome
  | tookNone
  | killed
deriving DecidableEq, Repr

/-- Global state of the interleaving: the lock-protected slot of the
Shared Lifecycle State, plus the phase of each concurrent invocation. -/
structure SysState where
  slot : Option ChildHandle
  phases : List Phase
deriving DecidableEq, Repr

/-- One scheduler step: invocation `i` runs.  A pending invocation runs
its atomic critical section (lock, `take()`, unlock — lib.rs lines
21-22): it empties the slot and records what it took.  An invocation
that took a handle performs its kill (lib.rs lines 23-36), which does
not touch the slot.  Completed or no-op invocations, and out-of-range
indices, do nothing. -/
def stepInv (s : SysState) (i : Nat) : SysState :=
  match s.phases.get? i with
  | none => s
  | some .pending =>
    match s.slot with
    | some _ => { slot := none, phases := s.phases.set i .tookSome }
    | none => { slot := none, phases := s.phases.set i .tookNone }
  | some .tookSome => { s with phases := s.phases.set i .killed }
  | some .tookNone => s
  | some .killed => s

/-- Run a whole schedule (an arbitrary interleaving of the invocations'
steps) from a state. -/
def runSchedule (s : SysState) : List Nat → SysState
  | [] => s
  | i :: rest => runSchedule (stepInv s i) rest

/-- Initial state for `n` concurrent termination triggers over a slot. -/
def initState (slot : Option ChildHandle) (n : Nat) : SysState :=
  { slot := slot, phases := List.replicate n .pending }

/-- An invocation in this phase has taken the handle out of the slot
(whether or not its kill has happened yet). -/
def phaseTaken : Phase → Bool
  | .tookSome => true
  | .killed => true
  | _ => false

/-- An invocation in this phase has performed its kill. -/
def phaseKilled : Phase → Bool
  | .killed => true
  | _ => false

/-- Number of invocations that took the handle out of the slot
(counting those that already went on to kill). -/
def countTaken (ps : List Phase) : Nat :=
  ps.countP phaseTaken

/-- Number of kill actions actually performed. -/
def countKilled (ps : List Phase) : Nat :=
  ps.countP phaseKilled

/-- A schedule actually runs at least one of the `n` invocations. -/
def hasValidIndex (sched : List Nat) (n : Nat) : Prop :=
  ∃ i ∈ sched, i < n

instance (sched : List Nat) (n : Nat) : Decidable (hasValidIndex sched n) := by
  unfold hasValidIndex; infer_instance

/-!
Output Drain Loop (lib.rs lines 86-110)

The spawned async task reads `CommandEvent`s from the receiver until
the channel closes or a `Terminated` event breaks the loop.  Stdout and
stderr payloads are byte vectors decoded lossily to UTF-8; lines here
carry the decoded string (the claims' inputs are plain ASCII, on which
lossy decoding is the identity). -/

/-- `tauri_plugin_shell::process::CommandEvent`, as matched by the
drain loop: stdout line, stderr line, launch error, termination payload
(exit code / signal of `TerminatedPayload`), or anything else
(the `_ => {}` arm). -/
inductive CommandEvent where
  | stdout (line : String)
  | stderr (line : String)
  | error (err : String)
  | terminated (code : Option Int) (signal : Option Int)
  | other
deriving DecidableEq, Repr

/-- A diagnostic record the drain loop emits: `println!`/`eprintln!`
with the stream-origin prefix (lib.rs lines 92, 97, 100, 103). -/
inductive LogLine where
  | sidecarStdout (s : String)
  | sidecarStderr (s : String)
  | sidecarError (s : String)
  | sidecarTerminated (code : Option Int) (signal : Option Int)
deriving DecidableEq, Repr

/-- `s.trim_end_matches(&['\r', '\n'][..])` (lib.rs lines 91, 96):
strip every trailing carriage return or line feed. -/
def trimEndCrLf (s : String) : String :=
  ⟨(s.data.reverse.dropWhile fun c => c == '\r' || c == '\n').reverse⟩

/-- What one run of the drain loop did: the diagnostic records emitted
in order, how many times it invoked `kill_sidecar`, and the events left
unconsumed in the stream when it stopped. -/
structure DrainResult where
  logs : List LogLine
  killInvocations : Nat
  remaining : List CommandEvent
deriving DecidableEq, Repr

/-- The drain loop (lib.rs lines 87-109) on a finite event stream:
stdout/stderr lines are trimmed and logged; launch errors are logged;
a `Terminated` payload is logged, `kill_sidecar` is invoked, and the
loop `break`s, leaving the rest of the stream unread; other events are
ignored; an exhausted stream ends the loop. -/
def drainLoop : List CommandEvent → DrainResult
  | [] => { logs := [], killInvocations := 0, remaining := [] }
  | e :: rest =>
    match e with
    | .stdout line =>
      let r := drainLoop rest
      { r with logs := .sidecarStdout (trimEndCrLf line) :: r.logs }
    | .stderr line =>
      let r := drainLoop rest
      { r with logs := .sidecarStderr (trimEndCrLf line) :: r.logs }
    | .error err =>
      let r := drainLoop rest
      { r with logs := .sidecarError err :: r.logs }
    | .terminated code signal =>
      { logs := [.sidecarTerminated code signal]
        killInvocations := 1
        remaining := rest }
    | .other =>
      drainLoop rest

/-!
Environment Builder (lib.rs lines 52-79)

The child's environment is the parent's process environment (inherited
by the spawned command) overridden by the entries set explicitly with
`.env(...)`.  External lookups model `std::env::var`, which is `Err`
when the variable is unset. -/

/-- The sidecar log path candidate (lib.rs lines 52-56): when the
app-data directory resolves, the path is `<dir>/tiptune-sidecar.log`;
the result of `fs::create_dir_all` is discarded (`let _ =`, line 54),
so `createDirOk` does not influence the outcome.  When the directory
does not resolve, no candidate exists. -/
def sidecarLogPath (dataDir : Except String String) (createDirOk : Bool) :
    Option String :=
  match dataDir with
  | .ok dir => some (dir ++ "/tiptune-sidecar.log")
  | .error _ => none

/-- The entries set explicitly on the sidecar command with `.env(...)`
(lib.rs lines 61-79), in order: parent pid, web host `127.0.0.1`, web
port `8765` (all unconditional); `TIPTUNE_LOG_LEVEL=INFO` only when the
external variable is unset; `TIPTUNE_DEFAULT_LOG_PATH=<candidate>` only
when the external variable is unset and a candidate path exists. -/
def buildSidecarEnv (pid : Nat) (ext : String → Option String)
    (logPath : Option String) : List (String × String) :=
  [("TIPTUNE_PARENT_PID", toString pid),
   ("TIPTUNE_WEB_HOST", "127.0.0.1"),
   ("TIPTUNE_WEB_PORT", "8765")]
  ++ (if (ext "TIPTUNE_LOG_LEVEL").isNone
      then [("TIPTUNE_LOG_LEVEL", "INFO")] else [])
  ++ (match ext "TIPTUNE_DEFAULT_LOG_PATH", logPath with
      | none, some p => [("TIPTUNE_DEFAULT_LOG_PATH", p)]
      | _, _ => [])

/-- Look a variable up among the explicitly set entries. -/
def lookupEnv (entries : List (String × String)) (key : String) :
    Option String :=
  (entries.find? fun e => e.1 == key).map (·.2)

/-- The child's effective environment: explicitly set entries override
the inherited external environment (the semantics of
`std::process::Command::env` on top of inheritance). -/
def childEnv (ext : String → Option String)
    (entries : List (String × String)) (key : String) : Option String :=
  match lookupEnv entries key with
  | some v => some v
  | none => ext key

/-!
Process Launcher and setup (lib.rs lines 47-84, 124-125)

`app.shell().sidecar("TipTune")?` and `sidecar_command.spawn()?` both
propagate their errors out of the setup closure with `?`; a setup error
makes `Builder::build` fail, and the `.expect(...)` on line 125 aborts
startup.  `app.manage(SidecarState(...))` runs only after a successful
spawn (line 83), so on any failure no child handle is ever stored. -/

/-- A launch failure: the sidecar binary could not be resolved
(line 60) or the spawn was rejected by the OS (line 81). -/
inductive LaunchFailure where
  | sidecarResolve (msg : String)
  | spawnFailure (msg : String)
deriving DecidableEq, Repr

/-- The setup closure's sidecar section (lib.rs lines 48-110), with the
outcomes of binary resolution and spawning as inputs.  Returns the
setup result and the managed Shared Lifecycle State: `none` when
`app.manage(SidecarState(...))` was never reached, otherwise the slot
contents stored on line 83. -/
def setupSidecar (resolve : Except String Unit)
    (spawn : Except String ChildHandle) :
    Except LaunchFailure Unit × Option (Option ChildHandle) :=
  match resolve with
  | .error e => (.error (.sidecarResolve e), none)
  | .ok _ =>
    match spawn with
    | .error e => (.error (.spawnFailure e), none)
    | .ok child => (.ok (), some (some child))

/-- How application startup ends (lib.rs lines 124-125): a setup error
propagates out of `build` and the `.expect` aborts startup; otherwise
the app runs with the managed state. -/
inductive StartupOutcome where
  | aborted (err : LaunchFailure)
  | running (state : Option (Option ChildHandle))
deriving DecidableEq, Repr

/-- Application startup: run setup; abort on a setup error (the
`.expect("error while building tauri application")` on line 125),
otherwise run with the state setup produced. -/
def applicationStartup (resolve : Except String Unit)
    (spawn : Except String ChildHandle) : StartupOutcome :=
  match setupSidecar resolve spawn with
  | (.error e, _) => .aborted e
  | (.ok _, st) => .running st

/-- An external environment supplying a bind-host override; used to
evaluate the Environment Builder on a host override. -/
def hostOverrideEnv : String → Option String :=
  fun k => if k = "TIPTUNE_WEB_HOST" then some "0.0.0.0" else none

/-- An external environment supplying a `DEBUG` log-level override. -/
def debugLevelEnv : String → Option String :=
  fun k => if k = "TIPTUNE_LOG_LEVEL" then some "DEBUG" else none

/-- An external environment supplying a log-path override. -/
def pathOverrideEnv : String → Option String :=
  fun k => if k = "TIPTUNE_DEFAULT_LOG_PATH" then some "/tmp/x.log" else none

/-- An empty external environment (no overrides set). -/
def emptyEnv : String → Option String :=
  fun _ => none

/-!
Theorems
-/

/-- Claim C2: Invoking the Termination Sequencer when the Shared Lifecycle
State is already "absent" has no observable effect and does not fail:
on every platform the state stays `none`, no kill command is issued,
and (by totality of the embedded function) the routine returns
normally. -/
theorem kill_sidecar_idempotent_on_absent (platform : Platform) :
    kill_sidecar platform .ok none = { slot := none, killed := none } :=
  rfl

/-- Claim C10: When acquiring the Shared Lifecycle State's lock fails
(poisoned mutex), `kill_sidecar` silently does nothing: the slot is
untouched (a previously stored handle remains present) and no kill
command is issued; totality of the embedded function reflects that the
`if let Ok` pattern cannot panic. -/
theorem kill_sidecar_poisoned_lock_noop (platform : Platform)
    (slot : Option ChildHandle) :
    kill_sidecar platform .poisoned slot = { slot := slot, killed := none } :=
  rfl

/-- Claim C3 counterexample: with a handle present, the `kill_sidecar` trace
is `[lockAcquired, handleTaken, killPerformed, lockReleased]`, so the
lock release (position 3) does NOT precede the kill (position 2): the
`MutexGuard` of lib.rs line 21 lives to the closing brace on line 38,
across the kill on lines 23-36. -/
theorem kill_sidecar_lock_not_released_before_kill :
    ¬ tracePos (killSidecarTrace .ok (some ⟨1⟩)) .lockReleased <
        tracePos (killSidecarTrace .ok (some ⟨1⟩)) .killPerformed := by
  decide

/-- Claim C3 amended: when `kill_sidecar` finds a child handle present, it
removes the handle from the shared slot before performing the kill,
but the lock is held across the kill call and released only after the
kill completes. -/
theorem kill_sidecar_take_before_kill_lock_held_across (c : ChildHandle) :
    killSidecarTrace .ok (some c) =
      [.lockAcquired, .handleTaken, .killPerformed, .lockReleased] ∧
    tracePos (killSidecarTrace .ok (some c)) .handleTaken <
      tracePos (killSidecarTrace .ok (some c)) .killPerformed ∧
    tracePos (killSidecarTrace .ok (some c)) .killPerformed <
      tracePos (killSidecarTrace .ok (some c)) .lockReleased :=
  ⟨rfl, by show (1 : Nat) < 2; decide, by show (2 : Nat) < 3; decide⟩

/-- Claim C4: on the synthetic event sequence
`[Stdout "a", Stderr "b\r\n", Terminated payload]` the drain loop
emits diagnostic records for `"a"` and `"b"` (trailing `\r`/`\n`
trimmed) in order, then the termination record, invokes `kill_sidecar`
exactly once, and leaves nothing of the stream consumed after the
break. -/
theorem drain_loop_synthetic_sequence (code signal : Option Int) :
    drainLoop [.stdout "a", .stderr "b\r\n", .terminated code signal] =
      { logs := [.sidecarStdout "a", .sidecarStderr "b",
                 .sidecarTerminated code signal]
        killInvocations := 1
        remaining := [] } :=
  rfl

/-- Claim C5: when the sidecar binary cannot be resolved or cannot be
spawned, startup aborts with the corresponding `LaunchFailure`, and the
Shared Lifecycle State is never managed: no child handle is ever
stored. -/
theorem launch_failure_aborts_startup_state_absent (e : String)
    (spawn : Except String ChildHandle) :
    (applicationStartup (.error e) spawn = .aborted (.sidecarResolve e) ∧
      (setupSidecar (.error e) spawn).2 = none) ∧
    (applicationStartup (.ok ()) (.error e) = .aborted (.spawnFailure e) ∧
      (setupSidecar (.ok ()) (.error e)).2 = none) :=
  ⟨⟨rfl, rfl⟩, ⟨rfl, rfl⟩⟩

/-- Claim C6: when no external `TIPTUNE_LOG_LEVEL` is set, the child's
environment carries `TIPTUNE_LOG_LEVEL=INFO`; when an external value is
set, it reaches the child unchanged (by inheritance) and the `INFO`
default is not added to the explicit entries. -/
theorem log_level_default_and_override (pid : Nat)
    (ext : String → Option String) (logPath : Option String) :
    (ext "TIPTUNE_LOG_LEVEL" = none →
      childEnv ext (buildSidecarEnv pid ext logPath) "TIPTUNE_LOG_LEVEL" =
        some "INFO") ∧
    (∀ v, ext "TIPTUNE_LOG_LEVEL" = some v →
      childEnv ext (buildSidecarEnv pid ext logPath) "TIPTUNE_LOG_LEVEL" =
        some v ∧
      lookupEnv (buildSidecarEnv pid ext logPath) "TIPTUNE_LOG_LEVEL" =
        none) := by
  constructor
  · intro h
    simp [childEnv, lookupEnv, buildSidecarEnv, h]
  · intro v h
    rcases h2 : ext "TIPTUNE_DEFAULT_LOG_PATH" with _ | w <;>
      rcases logPath with _ | p <;>
        simp [childEnv, lookupEnv, buildSidecarEnv, h, h2]

/-- Witness for C6 at concrete inputs: no override gives `INFO`, a
`DEBUG` override is preserved and the default is not applied. -/
theorem log_level_default_and_override_witness :
    childEnv emptyEnv (buildSidecarEnv 7 emptyEnv none) "TIPTUNE_LOG_LEVEL" =
      some "INFO" ∧
    childEnv debugLevelEnv (buildSidecarEnv 7 debugLevelEnv none)
      "TIPTUNE_LOG_LEVEL" = some "DEBUG" ∧
    lookupEnv (buildSidecarEnv 7 debugLevelEnv none) "TIPTUNE_LOG_LEVEL" =
      none :=
  ⟨(log_level_default_and_override 7 emptyEnv none).1 rfl,
   ((log_level_default_and_override 7 debugLevelEnv none).2 "DEBUG"
      (by decide)).1,
   ((log_level_default_and_override 7 debugLevelEnv none).2 "DEBUG"
      (by decide)).2⟩

/-- Claim C7: when no external `TIPTUNE_DEFAULT_LOG_PATH` is set and the
app-data directory resolves, the child's log path is
`<dir>/tiptune-sidecar.log` (whatever `fs::create_dir_all` returned);
when an external value is set, it reaches the child verbatim and the
derived path is not added. -/
theorem log_path_derived_and_override (pid : Nat)
    (ext : String → Option String) (dir : String) (createDirOk : Bool)
    (logPath : Option String) :
    (ext "TIPTUNE_DEFAULT_LOG_PATH" = none →
      childEnv ext
        (buildSidecarEnv pid ext (sidecarLogPath (.ok dir) createDirOk))
        "TIPTUNE_DEFAULT_LOG_PATH" = some (dir ++ "/tiptune-sidecar.log")) ∧
    (∀ v, ext "TIPTUNE_DEFAULT_LOG_PATH" = some v →
      childEnv ext (buildSidecarEnv pid ext logPath)
        "TIPTUNE_DEFAULT_LOG_PATH" = some v ∧
      lookupEnv (buildSidecarEnv pid ext logPath)
        "TIPTUNE_DEFAULT_LOG_PATH" = none) := by
  constructor
  · intro h
    rcases h1 : ext "TIPTUNE_LOG_LEVEL" with _ | u <;>
      simp [childEnv, lookupEnv, buildSidecarEnv, sidecarLogPath, h, h1]
  · intro v h
    rcases h1 : ext "TIPTUNE_LOG_LEVEL" with _ | u <;>
      rcases logPath with _ | p <;>
        simp [childEnv, lookupEnv, buildSidecarEnv, h, h1]

/-- Witness for C7 at concrete inputs: derived path present without an
override, an override preserved verbatim with no derived entry. -/
theorem log_path_derived_and_override_witness :
    childEnv emptyEnv
      (buildSidecarEnv 7 emptyEnv (sidecarLogPath (.ok "data") true))
      "TIPTUNE_DEFAULT_LOG_PATH" = some "data/tiptune-sidecar.log" ∧
    childEnv pathOverrideEnv (buildSidecarEnv 7 pathOverrideEnv none)
      "TIPTUNE_DEFAULT_LOG_PATH" = some "/tmp/x.log" ∧
    lookupEnv (buildSidecarEnv 7 pathOverrideEnv none)
      "TIPTUNE_DEFAULT_LOG_PATH" = none :=
  ⟨(log_path_derived_and_override 7 emptyEnv "data" true none).1 rfl,
   ((log_path_derived_and_override 7 pathOverrideEnv "data" true none).2
      "/tmp/x.log" (by decide)).1,
   ((log_path_derived_and_override 7 pathOverrideEnv "data" true none).2
      "/tmp/x.log" (by decide)).2⟩

/-- Claim C8 counterexample: with no override and a resolving app-data
directory, the `TIPTUNE_DEFAULT_LOG_PATH` entry is present even though
directory creation failed — the source discards the result of
`fs::create_dir_all` (`let _ =`, lib.rs line 54), so the claim that the
entry is omitted on creation failure is false. -/
theorem log_path_present_despite_create_dir_failure :
    lookupEnv
        (buildSidecarEnv 1 emptyEnv (sidecarLogPath (.ok "data") false))
        "TIPTUNE_DEFAULT_LOG_PATH" = some "data/tiptune-sidecar.log" ∧
    ¬ lookupEnv
        (buildSidecarEnv 1 emptyEnv (sidecarLogPath (.ok "data") false))
        "TIPTUNE_DEFAULT_LOG_PATH" = none := by
  constructor
  · rfl
  · decide

/-- Claim C8 amended: with no external override, the
`TIPTUNE_DEFAULT_LOG_PATH` entry is omitted exactly when the app-data
directory fails to resolve; when it resolves, the entry is set to
`<dir>/tiptune-sidecar.log` regardless of whether creating the
directory succeeded. -/
theorem log_path_omitted_only_without_data_dir (pid : Nat)
    (ext : String → Option String) (createDirOk : Bool) (err dir : String) :
    ext "TIPTUNE_DEFAULT_LOG_PATH" = none →
      lookupEnv
          (buildSidecarEnv pid ext (sidecarLogPath (.error err) createDirOk))
          "TIPTUNE_DEFAULT_LOG_PATH" = none ∧
      lookupEnv
          (buildSidecarEnv pid ext (sidecarLogPath (.ok dir) createDirOk))
          "TIPTUNE_DEFAULT_LOG_PATH" = some (dir ++ "/tiptune-sidecar.log") := by
  intro h
  rcases h1 : ext "TIPTUNE_LOG_LEVEL" with _ | u <;>
    constructor <;>
      simp [lookupEnv, buildSidecarEnv, sidecarLogPath, h, h1]

/-- Witness for the amended C8 at concrete inputs, with directory
creation failing in both cases. -/
theorem log_path_omitted_only_without_data_dir_witness :
    lookupEnv
        (buildSidecarEnv 7 emptyEnv (sidecarLogPath (.error "denied") false))
        "TIPTUNE_DEFAULT_LOG_PATH" = none ∧
    lookupEnv
        (buildSidecarEnv 7 emptyEnv (sidecarLogPath (.ok "data") false))
        "TIPTUNE_DEFAULT_LOG_PATH" = some "data/tiptune-sidecar.log" :=
  log_path_omitted_only_without_data_dir 7 emptyEnv false "denied" "data" rfl

/-- Claim C9 counterexample: an externally supplied bind host `0.0.0.0` is
not reflected in the child's environment — the explicit
`.env("TIPTUNE_WEB_HOST", "127.0.0.1")` (lib.rs line 62) overrides it,
so the claim that host/port are externally overridable is false. -/
theorem web_host_override_ignored :
    hostOverrideEnv "TIPTUNE_WEB_HOST" = some "0.0.0.0" ∧
    childEnv hostOverrideEnv (buildSidecarEnv 1 hostOverrideEnv none)
        "TIPTUNE_WEB_HOST" = some "127.0.0.1" ∧
    ¬ childEnv hostOverrideEnv (buildSidecarEnv 1 hostOverrideEnv none)
        "TIPTUNE_WEB_HOST" = hostOverrideEnv "TIPTUNE_WEB_HOST" := by
  refine ⟨rfl, rfl, ?_⟩
  decide

/-- Claim C9 amended: the bind host and port entries are always set to the
fixed defaults `127.0.0.1` and `8765` (lib.rs lines 62-63); in the
child's effective environment these explicit entries override any
externally supplied value. -/
theorem web_host_port_always_defaults (pid : Nat)
    (ext : String → Option String) (logPath : Option String) :
    lookupEnv (buildSidecarEnv pid ext logPath) "TIPTUNE_WEB_HOST" =
      some "127.0.0.1" ∧
    lookupEnv (buildSidecarEnv pid ext logPath) "TIPTUNE_WEB_PORT" =
      some "8765" ∧
    childEnv ext (buildSidecarEnv pid ext logPath) "TIPTUNE_WEB_HOST" =
      some "127.0.0.1" ∧
    childEnv ext (buildSidecarEnv pid ext logPath) "TIPTUNE_WEB_PORT" =
      some "8765" :=
  ⟨rfl, rfl, rfl, rfl⟩

/-!
Lemmas for the interleaving analysis: each scheduler step preserves
the mutual-exclusion invariant (a present slot means no invocation has
taken yet), keeps the number of takes at most one, and empties the
slot as soon as any in-range invocation runs. -/

lemma countP_set_of_get (f : Phase → Bool) (ps : List Phase) (i : Nat) (p q : Phase)
    (h : ps.get? i = some p) :
    (ps.set i q).countP f + (if f p then 1 else 0) =
      ps.countP f + (if f q then 1 else 0) := by
  induction ps generalizing i with
  | nil => simp at h
  | cons a as ih =>
    cases i with
    | zero =>
      simp only [List.get?_cons_zero] at h
      injection h with h
      subst h
      simp [List.countP_cons]
      omega
    | succ n =>
      simp only [List.get?_cons_succ] at h
      have := ih n h
      simp only [List.set_cons_succ, List.countP_cons]
      omega

lemma stepInv_length (s : SysState) (i : Nat) :
    (stepInv s i).phases.length = s.phases.length := by
  unfold stepInv
  rcases h : s.phases.get? i with _ | p
  · rfl
  · cases p
    · rcases hs : s.slot with _ | c <;> simp [List.length_set]
    · simp [List.length_set]
    · rfl
    · rfl

lemma stepInv_of_ge (s : SysState) (i : Nat) (hge : s.phases.length ≤ i) :
    stepInv s i = s := by
  unfold stepInv
  rw [List.get?_eq_none.mpr hge]

lemma stepInv_allPending (s : SysState) (i : Nat)
    (hInv : s.slot.isSome → ∀ p ∈ s.phases, p = .pending) :
    (stepInv s i).slot.isSome → ∀ p ∈ (stepInv s i).phases, p = .pending := by
  unfold stepInv
  rcases h : s.phases.get? i with _ | p
  · exact hInv
  · cases p
    · rcases hs : s.slot with _ | c <;> simp
    · intro hs
      exact absurd (hInv hs _ (List.get?_mem h)) (by simp)
    · exact hInv
    · exact hInv

lemma stepInv_slot_of_none (s : SysState) (i : Nat) (hs : s.slot = none) :
    (stepInv s i).slot = none := by
  unfold stepInv
  rcases h : s.phases.get? i with _ | p
  · exact hs
  · cases p
    · rw [hs]
    · exact hs
    · exact hs
    · exact hs

lemma stepInv_slot_none_of_lt (s : SysState) (i : Nat)
    (hInv : s.slot.isSome → ∀ p ∈ s.phases, p = .pending)
    (hi : i < s.phases.length) :
    (stepInv s i).slot = none := by
  rcases h : s.phases.get? i with _ | p
  · exact absurd (List.get?_eq_none.mp h) (by omega)
  · rcases hs : s.slot with _ | c
    · exact stepInv_slot_of_none s i hs
    · have hp : p = .pending := hInv (by rw [hs]; rfl) _ (List.get?_mem h)
      subst hp
      unfold stepInv
      rw [h, hs]

lemma slot_none_of_nonpending (s : SysState) (i : Nat) (p : Phase)
    (hInv : s.slot.isSome → ∀ q ∈ s.phases, q = .pending)
    (h : s.phases.get? i = some p) (hp : p ≠ .pending) :
    s.slot = none := by
  rcases hs : s.slot with _ | c
  · rfl
  · exact absurd (hInv (by rw [hs]; rfl) _ (List.get?_mem h)) hp

lemma stepInv_countTaken (s : SysState) (i : Nat)
    (hInv : s.slot.isSome → ∀ p ∈ s.phases, p = .pending) :
    countTaken (stepInv s i).phases =
      countTaken s.phases +
        (if s.slot.isSome ∧ i < s.phases.length then 1 else 0) := by
  rcases h : s.phases.get? i with _ | p
  · have hge := List.get?_eq_none.mp h
    rw [stepInv_of_ge s i hge]
    have : ¬ i < s.phases.length := by omega
    simp [this]
  · have hi : i < s.phases.length := by
      rcases List.get?_eq_some.mp h with ⟨hlt, _⟩
      exact hlt
    cases p
    · rcases hs : s.slot with _ | c
      · have heq := countP_set_of_get phaseTaken s.phases i .pending .tookNone h
        unfold stepInv
        rw [h, hs]
        simp [countTaken, phaseTaken] at heq ⊢
        omega
      · have heq := countP_set_of_get phaseTaken s.phases i .pending .tookSome h
        unfold stepInv
        rw [h, hs]
        simp [countTaken, phaseTaken, hi] at heq ⊢
        omega
    · have hnone : s.slot = none := slot_none_of_nonpending s i _ hInv h (by simp)
      have heq := countP_set_of_get phaseTaken s.phases i .tookSome .killed h
      unfold stepInv
      rw [h]
      simp [countTaken, phaseTaken, hnone] at heq ⊢
      omega
    · have hnone : s.slot = none := slot_none_of_nonpending s i _ hInv h (by simp)
      unfold stepInv
      rw [h]
      simp [hnone]
    · have hnone : s.slot = none := slot_none_of_nonpending s i _ hInv h (by simp)
      unfold stepInv
      rw [h]
      simp [hnone]

lemma runSchedule_length (sched : List Nat) :
    ∀ s : SysState, (runSchedule s sched).phases.length = s.phases.length := by
  induction sched with
  | nil => intro s; rfl
  | cons i rest ih =>
    intro s
    rw [runSchedule, ih (stepInv s i), stepInv_length]

lemma runSchedule_allPending (sched : List Nat) :
    ∀ s : SysState, (s.slot.isSome → ∀ p ∈ s.phases, p = .pending) →
      (runSchedule s sched).slot.isSome →
        ∀ p ∈ (runSchedule s sched).phases, p = .pending := by
  induction sched with
  | nil => intro s hInv; exact hInv
  | cons i rest ih =>
    intro s hInv
    exact ih (stepInv s i) (stepInv_allPending s i hInv)

lemma runSchedule_slot_of_none (sched : List Nat) :
    ∀ s : SysState, s.slot = none → (runSchedule s sched).slot = none := by
  induction sched with
  | nil => intro s hs; exact hs
  | cons i rest ih =>
    intro s hs
    exact ih (stepInv s i) (stepInv_slot_of_none s i hs)

lemma runSchedule_slot_none_of_valid (sched : List Nat) :
    ∀ s : SysState, (s.slot.isSome → ∀ p ∈ s.phases, p = .pending) →
      hasValidIndex sched s.phases.length →
        (runSchedule s sched).slot = none := by
  induction sched with
  | nil =>
    intro s _ hv
    simp [hasValidIndex] at hv
  | cons i rest ih =>
    intro s hInv hv
    by_cases hi : i < s.phases.length
    · exact runSchedule_slot_of_none rest (stepInv s i)
        (stepInv_slot_none_of_lt s i hInv hi)
    · have hrest : hasValidIndex rest (stepInv s i).phases.length := by
        rw [stepInv_length]
        rcases hv with ⟨j, hj, hjlt⟩
        rcases List.mem_cons.mp hj with hji | hjr
        · exact absurd (hji ▸ hjlt) hi
        · exact ⟨j, hjr, hjlt⟩
      exact ih (stepInv s i) (stepInv_allPending s i hInv) hrest

lemma runSchedule_countTaken (sched : List Nat) :
    ∀ s : SysState, (s.slot.isSome → ∀ p ∈ s.phases, p = .pending) →
      countTaken (runSchedule s sched).phases =
        countTaken s.phases +
          (if s.slot.isSome ∧ hasValidIndex sched s.phases.length
           then 1 else 0) := by
  induction sched with
  | nil =>
    intro s _
    simp [hasValidIndex, runSchedule]
  | cons i rest ih =>
    intro s hInv
    rw [runSchedule]
    by_cases hi : i < s.phases.length
    · rcases hs : s.slot with _ | c
      · have hstep : countTaken (stepInv s i).phases = countTaken s.phases := by
          rw [stepInv_countTaken s i hInv, hs]
          simp
        have hslot : (stepInv s i).slot = none := stepInv_slot_of_none s i hs
        rw [ih (stepInv s i) (stepInv_allPending s i hInv), hstep, hslot]
        simp
      · have hstep : countTaken (stepInv s i).phases = countTaken s.phases + 1 := by
          rw [stepInv_countTaken s i hInv, hs]
          simp [hi]
        have hslot : (stepInv s i).slot = none :=
          stepInv_slot_none_of_lt s i hInv hi
        have hvalid : hasValidIndex (i :: rest) s.phases.length :=
          ⟨i, List.mem_cons_self i rest, hi⟩
        rw [ih (stepInv s i) (stepInv_allPending s i hInv), hstep, hslot]
        simp [hvalid]
    · have hge : s.phases.length ≤ i := by omega
      rw [stepInv_of_ge s i hge]
      rw [ih s hInv]
      have hiff : hasValidIndex (i :: rest) s.phases.length ↔
          hasValidIndex rest s.phases.length := by
        constructor
        · rintro ⟨j, hj, hjlt⟩
          rcases List.mem_cons.mp hj with hji | hjr
          · exact absurd (hji ▸ hjlt) hi
          · exact ⟨j, hjr, hjlt⟩
        · rintro ⟨j, hj, hjlt⟩
          exact ⟨j, List.mem_cons_of_mem i hj, hjlt⟩
      by_cases hv : hasValidIndex rest s.phases.length
      · simp [hv, hiff]
      · simp [hv, hiff]

lemma countKilled_le_countTaken (ps : List Phase) :
    countKilled ps ≤ countTaken ps := by
  induction ps with
  | nil => simp [countKilled, countTaken]
  | cons p rest ih =>
    simp only [countKilled, countTaken, List.countP_cons] at ih ⊢
    cases p <;> simp [phaseKilled, phaseTaken] <;> omega

lemma initState_allPending (slot : Option ChildHandle) (n : Nat) :
    (initState slot n).slot.isSome →
      ∀ p ∈ (initState slot n).phases, p = .pending := by
  intro _ p hp
  exact List.eq_of_mem_replicate hp

lemma initState_countTaken (slot : Option ChildHandle) (n : Nat) :
    countTaken (initState slot n).phases = 0 := by
  simp only [initState, countTaken]
  rw [List.countP_eq_zero]
  intro p hp
  rw [List.eq_of_mem_replicate hp]
  simp [phaseTaken]

/-- Claim C1: for every set of `n` concurrent termination-trigger
invocations of `kill_sidecar` and every interleaving of their steps,
the child is killed at most once, at most one invocation takes the
handle (every other observes the slot empty and is a no-op), the
Shared Lifecycle State ends absent once any invocation has run, and
from an absent start no kill ever happens. -/
theorem termination_interleaving_kill_at_most_once
    (slot : Option ChildHandle) (n : Nat) (sched : List Nat) :
    countKilled (runSchedule (initState slot n) sched).phases ≤ 1 ∧
    countTaken (runSchedule (initState slot n) sched).phases ≤ 1 ∧
    (hasValidIndex sched n → (runSchedule (initState slot n) sched).slot = none) ∧
    (slot.isSome → hasValidIndex sched n →
      countTaken (runSchedule (initState slot n) sched).phases = 1) ∧
    (slot = none →
      countTaken (runSchedule (initState slot n) sched).phases = 0) := by
  have hInv := initState_allPending slot n
  have hlen : (initState slot n).phases.length = n := by
    simp [initState]
  have hct := runSchedule_countTaken sched (initState slot n) hInv
  rw [initState_countTaken, hlen] at hct
  have hslot0 : (initState slot n).slot = slot := rfl
  rw [hslot0] at hct
  have htle : countTaken (runSchedule (initState slot n) sched).phases ≤ 1 := by
    rw [hct]
    split <;> omega
  refine ⟨le_trans (countKilled_le_countTaken _) htle, htle, ?_, ?_, ?_⟩
  · intro hv
    rw [← hlen] at hv
    exact runSchedule_slot_none_of_valid sched (initState slot n) hInv hv
  · intro hs hv
    rw [hct, if_pos ⟨hs, hv⟩]
  · intro h
    subst h
    rw [hct]
    simp

/-- Witness for C1: two triggers over a present handle, interleaved by
the schedule `[0, 5, 1, 0]` (including an out-of-range index): the
state ends absent, exactly one take, at most one kill. -/
theorem termination_interleaving_kill_at_most_once_witness :
    hasValidIndex [0, 5, 1, 0] 2 ∧
    (runSchedule (initState (some ⟨9⟩) 2) [0, 5, 1, 0]).slot = none ∧
    countTaken (runSchedule (initState (some ⟨9⟩) 2) [0, 5, 1, 0]).phases = 1 ∧
    countKilled (runSchedule (initState (some ⟨9⟩) 2) [0, 5, 1, 0]).phases ≤ 1 :=
  ⟨by decide,
   (termination_interleaving_kill_at_most_once (some ⟨9⟩) 2 [0, 5, 1, 0]).2.2.1
     (by decide),
   (termination_interleaving_kill_at_most_once (some ⟨9⟩) 2 [0, 5, 1, 0]).2.2.2.1
     (by decide) (by decide),
   (termination_interleaving_kill_at_most_once (some ⟨9⟩) 2 [0, 5, 1, 0]).1⟩

end TipTune
